import Mathlib

/-!
Verification development for gourmet2pdf.py, a converter from the Gourmet
Recipe Manager XML export format to a PDF recipe book and to schema.org
Recipe JSON documents.

The Python source is shallowly embedded below.  Conventions:

* Python floats are modelled exactly: `float()` applied to a decimal
  literal (optional sign, digits, optional fractional part) is modelled by
  `floatParse`, which returns the written value as an exact unnormalised
  fraction `PyFloat`; its mathematical value is `PyFloat.val : ℚ`.
  Exponent notation, `inf`/`nan`, underscores and surrounding whitespace
  are outside the model, as is double rounding (the spec's claims concern
  floor, integrality and exact arithmetic, which agree with IEEE doubles
  on the inputs in scope).
* Code that can raise an uncaught Python exception is modelled in
  `Except String`, the error string naming the Python exception class.
* BeautifulSoup tag access `recipe.x` is modelled by `Option` fields of a
  `Recipe` record; a tag's `.string`/`.text` is the `String` carried by
  the `some`, and `str(tag)` (as produced by `format` applied to a tag) is
  `tagMarkup`.
-/

set_option maxHeartbeats 1000000
set_option synthInstance.maxHeartbeats 400000

/-- Digits-to-number accumulator: the value of a string of decimal digits. -/
def natOfDigits (cs : List Char) : Nat :=
  cs.foldl (fun a c => 10 * a + (c.toNat - 48)) 0

/-- An exact, unnormalised binary-free model of a parsed Python float:
the literal `±i.f` denotes `num / den` with `den` a power of ten. -/
structure PyFloat where
  num : ℤ
  den : ℕ
deriving DecidableEq, Repr

/-- The mathematical value of a parsed float. -/
def PyFloat.val (f : PyFloat) : ℚ := (f.num : ℚ) / (f.den : ℚ)

/-- Model of Python `float(s)` on decimal literals: optional sign, then
digits with an optional fractional part ("7", "-1", "4.5", ".5", "1.").
Returns `none` where `float` raises `ValueError`. -/
def floatParse (s : String) : Option PyFloat :=
  let cs := s.data
  let signAndRest : ℤ × List Char :=
    match cs with
    | '-' :: r => (-1, r)
    | '+' :: r => (1, r)
    | _ => (1, cs)
  let sign := signAndRest.1
  let cs2 := signAndRest.2
  let intPart := cs2.takeWhile Char.isDigit
  let rest := cs2.dropWhile Char.isDigit
  match rest with
  | [] => if intPart.isEmpty then none else some ⟨sign * natOfDigits intPart, 1⟩
  | '.' :: frac =>
    if frac.all Char.isDigit && !(intPart.isEmpty && frac.isEmpty) then
      some ⟨sign * (natOfDigits intPart * 10 ^ frac.length + natOfDigits frac),
            10 ^ frac.length⟩
    else none
  | _ => none

/-- `rating.split('/')[0]`: the text before the first slash. -/
def numeratorText (rating : String) : String :=
  String.mk (rating.data.takeWhile (fun c => c ≠ '/'))

/-- Python `int()` applied to a float: truncation toward zero. -/
def pyTrunc (f : PyFloat) : ℤ := f.num.tdiv f.den

/-- Python `rate == int(rate)`: whether the float is integral. -/
def pyIsInt (f : PyFloat) : Bool := f.num % (f.den : ℤ) == 0

/-- The FontAwesome full-star glyph used by `starify_rating`. -/
def fullStar : Char := ''

/-- The FontAwesome half-star glyph used by `starify_rating`. -/
def halfStar : Char := ''

/-- Embedding of `starify_rating` (gourmet2pdf.py lines 50-59).  `rate`
defaults to 0 when `float` raises `ValueError` (the exception is caught
and a warning printed); `'' * int(rate)` yields the empty string for a
negative count, matching Python string repetition, which `Int.toNat`
reproduces; the half star is added exactly when `rate != int(rate)`. -/
def starify_rating (rating : String) : String :=
  let f : PyFloat := (floatParse (numeratorText rating)).getD ⟨0, 1⟩
  let full : String := String.mk (List.replicate (pyTrunc f).toNat fullStar)
  let half : String := if pyIsInt f then "" else String.mk [halfStar]
  "<font face=\"FontAwesome\">" ++ full ++ half ++ "</font>"

/-- Number of occurrences of a character in a string. -/
def starCount (s : String) (c : Char) : ℕ := s.data.count c

theorem string_data_append (a b : String) : (a ++ b).data = a.data ++ b.data := rfl

theorem string_data_mk (l : List Char) : (String.mk l).data = l := rfl

theorem starCount_append (a b : String) (c : Char) :
    starCount (a ++ b) c = starCount a c + starCount b c := by
  simp [starCount, string_data_append, List.count_append]

example : floatParse ("7") = some ⟨7, 1⟩ := by decide
example : floatParse ("-1") = some ⟨-1, 1⟩ := by decide
example : floatParse ("4.5") = some ⟨45, 10⟩ := by decide
example : floatParse ("abc") = none := by decide
example : floatParse ("") = none := by decide
example : floatParse (".5") = some ⟨5, 10⟩ := by decide
example : starCount (starify_rating ("2.5/5")) fullStar = 2 := by decide
example : starCount (starify_rating ("2.5/5")) halfStar = 1 := by decide
example : starCount (starify_rating ("x/5")) fullStar = 0 := by decide
example : starCount (starify_rating ("7/10")) fullStar = 7 := by decide
example : starCount (starify_rating ("7/10")) halfStar = 0 := by decide

theorem floatParse_den_pos (s : String) (f : PyFloat)
    (h : floatParse s = some f) : 0 < f.den := by
  simp only [floatParse] at h
  split at h
  · split at h
    · exact absurd h (by simp)
    · obtain rfl := (Option.some_inj).1 h
      exact Nat.one_pos
  · split at h
    · obtain rfl := (Option.some_inj).1 h
      exact Nat.pos_pow_of_pos _ (by norm_num)
    · exact absurd h (by simp)
  · exact absurd h (by simp)

theorem pyTrunc_toNat (f : PyFloat) (hd : 0 < f.den) (h0 : 0 ≤ f.val) :
    ((pyTrunc f).toNat : ℤ) = ⌊f.val⌋ := by
  have hdQ : (0 : ℚ) < (f.den : ℚ) := by exact_mod_cast hd
  have hnum : 0 ≤ f.num := by
    by_contra hneg
    push_neg at hneg
    have hlt : f.val < 0 :=
      div_neg_of_neg_of_pos (by exact_mod_cast hneg) hdQ
    exact absurd h0 (not_le.mpr hlt)
  have hdz : (0 : ℤ) ≤ (f.den : ℤ) := by positivity
  have ht : pyTrunc f = f.num / (f.den : ℤ) := Int.tdiv_eq_ediv hnum hdz
  have hfl : ⌊f.val⌋ = f.num / (f.den : ℤ) :=
    Rat.floor_intCast_div_natCast f.num f.den
  rw [ht, hfl, Int.toNat_of_nonneg (Int.ediv_nonneg hnum hdz)]

theorem pyIsInt_iff (f : PyFloat) (hd : 0 < f.den) :
    pyIsInt f = true ↔ ∃ z : ℤ, (z : ℚ) = f.val := by
  have hdQ : ((f.den : ℕ) : ℚ) ≠ 0 := by positivity
  rw [pyIsInt, beq_iff_eq]
  constructor
  · intro hmod
    obtain ⟨k, hk⟩ := Int.dvd_of_emod_eq_zero hmod
    refine ⟨k, ?_⟩
    rw [PyFloat.val, hk]
    push_cast
    rw [mul_comm, mul_div_assoc, div_self hdQ, mul_one]
  · rintro ⟨z, hz⟩
    rw [PyFloat.val, eq_div_iff hdQ] at hz
    have hzz : f.num = z * (f.den : ℤ) := by exact_mod_cast hz.symm
    exact Int.emod_eq_zero_of_dvd ⟨z, by rw [hzz]; ring⟩

/-- C1 (amended to nonnegative ratings): for every rating string whose text
before the first slash parses as a nonnegative number `a`, the PDF star
rendering produced by `starify_rating` contains exactly `⌊a⌋` full-star
glyphs and contains a half-star glyph iff `a` is non-integral; for a rating
whose numerator text is non-numeric it contains zero star glyphs of either
kind (the `ValueError` is caught, so no exception escapes). -/
theorem starify_rating_spec :
    (∀ (rating : String) (f : PyFloat),
      floatParse (numeratorText rating) = some f → 0 ≤ f.val →
        ((starCount (starify_rating rating) fullStar : ℤ) = ⌊f.val⌋ ∧
         (starCount (starify_rating rating) halfStar = 1 ↔
            ¬ ∃ z : ℤ, (z : ℚ) = f.val))) ∧
    (∀ rating : String, floatParse (numeratorText rating) = none →
      starCount (starify_rating rating) fullStar = 0 ∧
      starCount (starify_rating rating) halfStar = 0) := by
  constructor
  · intro rating f h h0
    have hd := floatParse_den_pos _ _ h
    have hfull0 : starCount ("<font face=\"FontAwesome\">") fullStar = 0 := by decide
    have hhalf0 : starCount ("<font face=\"FontAwesome\">") halfStar = 0 := by decide
    have hfull1 : starCount ("</font>") fullStar = 0 := by decide
    have hhalf1 : starCount ("</font>") halfStar = 0 := by decide
    simp only [starify_rating, h, Option.getD_some]
    constructor
    · rw [starCount_append, starCount_append, starCount_append,
          hfull0, hfull1]
      have hrep : starCount (String.mk (List.replicate (pyTrunc f).toNat fullStar))
          fullStar = (pyTrunc f).toNat := by
        simp [starCount, string_data_mk, List.count_replicate]
      have hhalfblk : starCount (if pyIsInt f then ""
          else String.mk [halfStar]) fullStar = 0 := by
        split
        · decide
        · decide
      rw [hrep, hhalfblk]
      simpa using pyTrunc_toNat f hd h0
    · rw [starCount_append, starCount_append, starCount_append,
          hhalf0, hhalf1]
      have hrep : starCount (String.mk (List.replicate (pyTrunc f).toNat fullStar))
          halfStar = 0 := by
        simp [starCount, string_data_mk, List.count_replicate]
        intro hEq
        exact absurd hEq (by decide)
      rw [hrep]
      rw [← pyIsInt_iff f hd]
      constructor
      · intro hcount hInt
        rw [hInt] at hcount
        simp at hcount
        exact absurd hcount (by decide)
      · intro hNotInt
        have : pyIsInt f = false := by
          cases hcase : pyIsInt f
          · rfl
          · exact absurd hcase hNotInt
        rw [this]
        decide
  · intro rating h
    simp only [starify_rating, h, Option.getD_none]
    constructor
    · decide
    · decide

/-- C1 counterexample to the claim as stated: the rating string "-1/5" has
the numeric numerator -1, yet the rendering contains 0 full-star glyphs,
not ⌊-1⌋ = -1 of them, because Python string repetition by a negative
count yields the empty string. -/
theorem starify_rating_negative_counterexample :
    floatParse (numeratorText ("-1/5")) = some ⟨-1, 1⟩ ∧
    ((starCount (starify_rating ("-1/5")) fullStar : ℤ) ≠
      ⌊(PyFloat.mk (-1) 1).val⌋) := by
  constructor
  · decide
  · have hfl : ⌊(PyFloat.mk (-1) 1).val⌋ = -1 := by
      rw [PyFloat.val]
      norm_num
    rw [hfl]
    decide

/-- Witness for `starify_rating_spec` at the concrete rating "2.5/5". -/
theorem starify_rating_spec_witness :
    (starCount (starify_rating ("2.5/5")) fullStar : ℤ) =
      ⌊(PyFloat.mk 25 10).val⌋ ∧
    (starCount (starify_rating ("2.5/5")) halfStar = 1 ↔
      ¬ ∃ z : ℤ, (z : ℚ) = (PyFloat.mk 25 10).val) :=
  starify_rating_spec.1 ("2.5/5") ⟨25, 10⟩ (by decide)
    (div_nonneg (by simp) (by simp))

/-! ## Duration parsing (`parse_time`, gourmet2pdf.py lines 177-201)

The regex `(?:(?P<hours>\d?\/?\d) Stunden?)? ?(?:(?P<minutes>\d?\/?\d) Minuten?)?`
is applied with `re.finditer` and the loop breaks after the first match.
Every part of the pattern is optional, so the first match is always found at
position 0 (possibly empty); the loop body therefore sees exactly the match
at the start of the string.  Once a group alternative succeeds the rest of
the pattern is all-optional and cannot fail, so the regex engine commits to
the first alternative (in greedy backtracking order) whose literal part
matches; `numCandidates` lists the alternatives of `\d?\/?\d` in that order.
`\d` is modelled as an ASCII digit. -/

/-- The alternatives of the number token `\d?\/?\d` at the head of the
input, in greedy backtracking order, each with the remaining input. -/
def numCandidates (s : List Char) : List (List Char × List Char) :=
  match s with
  | c1 :: rest =>
    if c1.isDigit then
      (match rest with
       | '/' :: c2 :: r => if c2.isDigit then [([c1, '/', c2], r)] else []
       | _ => []) ++
      (match rest with
       | c2 :: r => if c2.isDigit then [([c1, c2], r)] else []
       | _ => []) ++
      [([c1], rest)]
    else if c1 = '/' then
      match rest with
      | c2 :: r => if c2.isDigit then [([c1, c2], r)] else []
      | _ => []
    else []
  | [] => []

/-- Case-insensitive literal match (the regex is compiled with
`re.IGNORECASE`); returns the input after the pattern on success. -/
def startsWithCI : List Char → List Char → Option (List Char)
  | [], s => some s
  | _ :: _, [] => none
  | p :: ps, c :: cs => if p.toLower = c.toLower then startsWithCI ps cs else none

/-- Match one group `(?:(\d?\/?\d) <word>n?)` at the head of the input:
try each number-token alternative in backtracking order, require the
literal word, then greedily consume an optional trailing `n`.  Returns the
captured token and the remaining input. -/
def tryToken (word : List Char) (s : List Char) : Option (List Char × List Char) :=
  (numCandidates s).findSome? fun tr =>
    match startsWithCI word tr.2 with
    | some r2 =>
      some (tr.1, match r2 with
                  | c :: r3 => if c.toLower = 'n' then r3 else r2
                  | [] => r2)
    | none => none

/-- The two captures of the first regex match: the hour group, an optional
single space, then the minute group. -/
def matchTokens (s : List Char) : Option (List Char) × Option (List Char) :=
  let hourStep : Option (List Char) × List Char :=
    match tryToken ([' ', 'S', 't', 'u', 'n', 'd', 'e']) s with
    | some (tok, r) => (some tok, r)
    | none => (none, s)
  let rest2 : List Char :=
    match hourStep.2 with
    | ' ' :: r => r
    | _ => hourStep.2
  match tryToken ([' ', 'M', 'i', 'n', 'u', 't', 'e']) rest2 with
  | some (tok, _) => (hourStep.1, some tok)
  | none => (hourStep.1, none)

/-- Python `int(s)` on a captured token: the token consists of digits and
possibly a slash; `int` raises `ValueError` unless it is one or more
digits. -/
def pyIntNat (cs : List Char) : Except String ℕ :=
  if cs ≠ [] ∧ cs.all Char.isDigit then .ok (natOfDigits cs) else .error ("ValueError")

/-- Embedding of `parse_time` (gourmet2pdf.py lines 177-201).  A captured
hour token containing a slash is split at the slash (the token shape
guarantees exactly one slash, so the destructuring assignment gets exactly
two parts); `int(h1 / h2 * 60)` is float division, multiplication and
truncation, which on single-digit operands equals exact floor division
`h1 * 60 / h2`; division by zero raises `ZeroDivisionError`.  The final
string is `'PT{}H{}M'.format(hours, minutes)`. -/
def parse_time_hm (captures : Option (List Char) × Option (List Char)) :
    Except String (ℕ × ℕ) :=
  match captures.1 with
  | some h =>
    if h.contains '/' then
      let h1s := h.takeWhile (fun c => c ≠ '/')
      let h2s := (h.dropWhile (fun c => c ≠ '/')).tail
      do
        let h1 ← pyIntNat h1s
        let h2 ← pyIntNat h2s
        match captures.2 with
        | some m => do
          let mv ← pyIntNat m
          if h2 = 0 then throw ("ZeroDivisionError")
          else pure (1, (mv + h1 * 60 / h2) % 60)
        | none =>
          if h2 = 0 then throw ("ZeroDivisionError")
          else pure (0, h1 * 60 / h2)
    else do
      let hv ← pyIntNat h
      let mv ← (match captures.2 with
                | some m => pyIntNat m
                | none => pure 0)
      pure (hv, mv)
  | none => do
    let mv ← (match captures.2 with
              | some m => pyIntNat m
              | none => pure 0)
    pure (0, mv)

def parse_time (time_string : String) : Except String String :=
  (parse_time_hm (matchTokens time_string.data)).map
    (fun hm => "PT" ++ toString hm.1 ++ "H" ++ toString hm.2 ++ "M")

deriving instance DecidableEq for Except

example : parse_time ("45 Minuten") = .ok ("PT0H45M") := by decide
example : parse_time ("1 Stunde") = .ok ("PT1H0M") := by decide
example : parse_time ("1/2 Stunden") = .ok ("PT0H30M") := by decide
example : parse_time ("1 Stunde 45 Minuten") = .ok ("PT1H45M") := by decide
example : parse_time ("1 Stunde 75 Minuten") = .ok ("PT1H75M") := by decide
example : parse_time ("1/2 Stunden 45 Minuten") = .ok ("PT1H15M") := by decide
example : parse_time ("1/0 Stunden") = .error ("ZeroDivisionError") := by decide
example : parse_time ("1/2 Minuten") = .error ("ValueError") := by decide
example : parse_time ("ca. 30 min") = .ok ("PT0H0M") := by decide
example : parse_time ("") = .ok ("PT0H0M") := by decide

/-- C2 (documents the defect): `parse_time` maps the four example phrasings
as the spec states, always emits both components, but does not carry
minute overflow uniformly: with an integral hour token and a minute token
totalling at least 60 minutes, the minutes are left unreduced and no hour
is carried — "1 Stunde 75 Minuten" yields "PT1H75M", not "PT2H15M" —
whereas the fractional-hour branch does reduce modulo 60. -/
theorem parse_time_examples_no_uniform_carry :
    parse_time ("45 Minuten") = .ok ("PT0H45M") ∧
    parse_time ("1 Stunde") = .ok ("PT1H0M") ∧
    parse_time ("1/2 Stunden") = .ok ("PT0H30M") ∧
    parse_time ("1 Stunde 45 Minuten") = .ok ("PT1H45M") ∧
    parse_time ("1/2 Stunden 45 Minuten") = .ok ("PT1H15M") ∧
    parse_time ("1 Stunde 75 Minuten") = .ok ("PT1H75M") ∧
    ("PT1H75M" : String) ≠ ("PT2H15M") := by
  refine ⟨?_, ?_, ?_, ?_, ?_, ?_, ?_⟩ <;> decide

/-- The successful output of `parse_time` always has the shape
`PT{hours}H{minutes}M` with both components present. -/
theorem parse_time_shape (s out : String) (h : parse_time s = .ok out) :
    ∃ hrs mins : ℕ,
      out = "PT" ++ toString hrs ++ "H" ++ toString mins ++ "M" := by
  unfold parse_time at h
  cases hhm : parse_time_hm (matchTokens s.data) with
  | error e => rw [hhm] at h; exact absurd h (by simp [Except.map])
  | ok hm =>
    rw [hhm] at h
    simp only [Except.map] at h
    exact ⟨hm.1, hm.2, by injection h with h2; exact h2.symm⟩

/-- C10: for every input in which neither an hour token nor a minute token
matches at the start of the string (both regex captures empty, as with
arbitrary unrelated text or a duration preceded by other words),
`parse_time` returns exactly "PT0H0M" and raises no exception. -/
theorem parse_time_default_zero (s : String)
    (h1 : (matchTokens s.data).1 = none)
    (h2 : (matchTokens s.data).2 = none) :
    parse_time s = .ok ("PT0H0M") := by
  have hcap : matchTokens s.data = (none, none) := by
    cases hc : matchTokens s.data with
    | mk a b =>
      rw [hc] at h1 h2
      simp only at h1 h2
      rw [h1, h2]
  unfold parse_time
  rw [hcap]
  rfl

/-- Witness for `parse_time_default_zero` at a concrete input in which the
duration is preceded by other words. -/
theorem parse_time_default_zero_witness :
    parse_time ("etwa eine halbe Stunde") = .ok ("PT0H0M") :=
  parse_time_default_zero ("etwa eine halbe Stunde") (by decide) (by decide)

/-! ## Data model

`Recipe` models one `<recipe>` element as seen through BeautifulSoup
attribute access: each optional tag is an `Option String` holding the
tag's text content.  When `<inggroup>` elements are present the direct
`ingredient` list is unused (both converters branch on `find_all('inggroup')`);
`recipe.totalTime` is modelled as the `totaltime` field.  -/

/-- One `<ingredient>` element: three individually optional text children. -/
structure Ingredient where
  amount : Option String
  unit : Option String
  item : Option String
deriving DecidableEq, Repr

/-- One `<inggroup>` element: optional `<groupname>` and its ingredients in
document order. -/
structure IngGroup where
  name : Option String
  ingredients : List Ingredient
deriving DecidableEq, Repr

/-- One `<recipe>` element. -/
structure Recipe where
  title : Option String
  source : Option String
  link : Option String
  rating : Option String
  category : Option String
  image : Option String
  preptime : Option String
  cooktime : Option String
  totaltime : Option String
  yields : Option String
  inggroups : List IngGroup
  ingredients : List Ingredient
  instructions : Option String
  modifications : Option String
deriving DecidableEq, Repr

/-- `str(tag)` for a simple text tag: the XML markup
`<tag>text</tag>`, or the empty string for an absent tag (the code writes
`''` in that case). -/
def tagMarkup (tag : String) : Option String → String
  | some s => "<" ++ tag ++ ">" ++ s ++ "</" ++ tag ++ ">"
  | none => ""

/-- One PDF ingredient line (gourmet2pdf.py lines 89-91):
`'{} {} {}'.format(i.amount ..., i.unit ..., i.item ...)` formats the tag
objects themselves, so each present part appears as its XML markup. -/
def pdfIngredientLine (i : Ingredient) : String :=
  tagMarkup ("amount") i.amount ++ " " ++ tagMarkup ("unit") i.unit ++ " " ++
    tagMarkup ("item") i.item

/-- Embedding of `add_ingredients_for_group` (gourmet2pdf.py lines 82-92):
a heading paragraph with the group name's text if present, then one
paragraph per ingredient in document order. -/
def add_ingredients_for_group (g : IngGroup) : List String :=
  (match g.name with
   | some n => [n]
   | none => []) ++ g.ingredients.map pdfIngredientLine

/-- One JSON ingredient line (gourmet2pdf.py lines 264 and 267):
`'{} {} {}'.format(i.amount.string ..., ...)` uses the text content. -/
def jsonIngredientLine (i : Ingredient) : String :=
  i.amount.getD "" ++ " " ++ i.unit.getD "" ++ " " ++ i.item.getD ""

/-- The JSON exporter's lines for one `<inggroup>` (gourmet2pdf.py lines
260-264): the heading is `'## {}'.format(igroup.groupname)`, which formats
the groupname tag object, hence includes its markup. -/
def jsonGroupLines (g : IngGroup) : List String :=
  (match g.name with
   | some n => ["## " ++ tagMarkup ("groupname") (some n)]
   | none => []) ++ g.ingredients.map jsonIngredientLine

/-- C6 counterexample: on a named group with one fully populated
ingredient the PDF flattener and the JSON flattener produce different
heading text and different line text, so the two renderings are not
identical as the claim states. -/
theorem flatteners_not_identical :
    add_ingredients_for_group
        ⟨some ("Teig"), [⟨some ("250"), some ("g"), some ("Mehl")⟩]⟩ ≠
      jsonGroupLines
        ⟨some ("Teig"), [⟨some ("250"), some ("g"), some ("Mehl")⟩]⟩ := by
  decide

/-- C6 (amended): for every ingredient group the PDF flattener and the
JSON flattener agree in shape — a heading entry iff the group is named,
followed by exactly one line per ingredient in document order — but the
texts differ: the PDF heading is the group name's bare text and its lines
embed each present part's XML markup, while the JSON heading is "## "
followed by the groupname element's markup and its lines use the bare
part texts. -/
theorem flatteners_shape_agree (g : IngGroup) :
    (add_ingredients_for_group g).length = (jsonGroupLines g).length ∧
    (add_ingredients_for_group g).drop (if g.name.isSome then 1 else 0) =
      g.ingredients.map pdfIngredientLine ∧
    (jsonGroupLines g).drop (if g.name.isSome then 1 else 0) =
      g.ingredients.map jsonIngredientLine ∧
    (∀ n, g.name = some n →
      (add_ingredients_for_group g).head? = some n ∧
      (jsonGroupLines g).head? =
        some ("## " ++ tagMarkup ("groupname") (some n))) ∧
    (g.name = none →
      (add_ingredients_for_group g) = g.ingredients.map pdfIngredientLine ∧
      (jsonGroupLines g) = g.ingredients.map jsonIngredientLine) := by
  cases hn : g.name with
  | none =>
    simp [add_ingredients_for_group, jsonGroupLines, hn]
  | some n =>
    simp [add_ingredients_for_group, jsonGroupLines, hn]

/-- Witness for `flatteners_shape_agree` at a concrete named group. -/
theorem flatteners_shape_agree_witness :
    (add_ingredients_for_group
        ⟨some ("Teig"), [⟨none, none, some ("Mehl")⟩]⟩).head? = some ("Teig") ∧
    (jsonGroupLines ⟨some ("Teig"), [⟨none, none, some ("Mehl")⟩]⟩).head? =
      some ("## " ++ tagMarkup ("groupname") (some ("Teig"))) :=
  (flatteners_shape_agree ⟨some ("Teig"), [⟨none, none, some ("Mehl")⟩]⟩).2.2.2.1
    ("Teig") rfl

/-- C7 counterexample: an ingredient with only an `item` does not render as
exactly the item text; the format string `'{} {} {}'` keeps both separator
spaces, so the line carries two leading spaces. -/
theorem item_only_line_counterexample :
    jsonIngredientLine ⟨none, none, some ("Mehl")⟩ = "  Mehl" ∧
    jsonIngredientLine ⟨none, none, some ("Mehl")⟩ ≠ "Mehl" := by
  constructor
  · decide
  · decide

/-- C7 (amended): every rendered ingredient line is
`'{amount} {unit} {item}'` with absent parts as empty strings, so both
separator spaces are always present — an item-only ingredient renders with
two leading spaces, not as the bare item; document order of groups and of
ingredients within a group is preserved by the flattening. -/
theorem ingredient_line_format_order :
    (∀ it : String, jsonIngredientLine ⟨none, none, some it⟩ = "  " ++ it) ∧
    (∀ it : String, pdfIngredientLine ⟨none, none, some it⟩ =
        "  " ++ tagMarkup ("item") (some it)) ∧
    (∀ (g : IngGroup) (gs : List IngGroup),
      ((g :: gs).map jsonGroupLines).flatten =
        jsonGroupLines g ++ (gs.map jsonGroupLines).flatten) ∧
    (∀ (gs : List IngGroup) (g : IngGroup), g ∈ gs →
      List.Sublist (g.ingredients.map jsonIngredientLine)
        ((gs.map jsonGroupLines).flatten)) := by
  refine ⟨?_, ?_, ?_, ?_⟩
  · intro it
    rfl
  · intro it
    rfl
  · intro g gs
    simp [List.flatten_cons]
  · intro gs
    induction gs with
    | nil => intro g hg; exact absurd hg (List.not_mem_nil g)
    | cons g0 rest ih =>
      intro g hg
      rcases List.mem_cons.1 hg with hEq | hMem
      · subst hEq
        have h1 : List.Sublist (g.ingredients.map jsonIngredientLine)
            (jsonGroupLines g) := by
          rw [jsonGroupLines]
          exact List.sublist_append_right _ _
        have h2 : List.Sublist (jsonGroupLines g)
            (((g :: rest).map jsonGroupLines).flatten) := by
          simp only [List.map_cons, List.flatten_cons]
          exact List.sublist_append_left _ _
        exact h1.trans h2
      · have h2 := ih g hMem
        refine h2.trans ?_
        simp only [List.map_cons, List.flatten_cons]
        exact List.sublist_append_right _ _

/-- Witness for `ingredient_line_format_order` at concrete inputs. -/
theorem ingredient_line_format_order_witness :
    jsonIngredientLine ⟨none, none, some ("Salz")⟩ = "  " ++ "Salz" ∧
    List.Sublist
      (([⟨some ("1"), none, some ("Ei")⟩] : List Ingredient).map jsonIngredientLine)
      ((([⟨none, [⟨some ("1"), none, some ("Ei")⟩]⟩] : List IngGroup).map
          jsonGroupLines).flatten) :=
  ⟨ingredient_line_format_order.1 ("Salz"),
   ingredient_line_format_order.2.2.2
     ([⟨none, [⟨some ("1"), none, some ("Ei")⟩]⟩])
     (⟨none, [⟨some ("1"), none, some ("Ei")⟩]⟩) (by decide)⟩

/-! ## Image decoding

Model of `base64.b64decode` (Python default `validate=False`): characters
outside the alphabet and `'='` are discarded, the remainder is decoded in
blocks of four with standard padding, and a leftover or malformed block
raises `binascii.Error`. -/

def isB64Char (c : Char) : Bool :=
  ('A' ≤ c && c ≤ 'Z') || ('a' ≤ c && c ≤ 'z') || c.isDigit || c = '+' || c = '/'

def b64val (c : Char) : ℕ :=
  if 'A' ≤ c ∧ c ≤ 'Z' then c.toNat - 65
  else if 'a' ≤ c ∧ c ≤ 'z' then c.toNat - 97 + 26
  else if c.isDigit then c.toNat - 48 + 52
  else if c = '+' then 62
  else 63

def decodeBlocks : List Char → Except String (List ℕ)
  | [] => .ok ([])
  | a :: b :: c :: d :: rest =>
    if a = '=' ∨ b = '=' then .error ("binascii.Error")
    else
      let v1 := b64val a
      let v2 := b64val b
      if c = '=' then
        if d = '=' ∧ rest = [] then .ok ([v1 * 4 + v2 / 16])
        else .error ("binascii.Error")
      else
        let v3 := b64val c
        if d = '=' then
          if rest = [] then .ok ([v1 * 4 + v2 / 16, v2 % 16 * 16 + v3 / 4])
          else .error ("binascii.Error")
        else
          match decodeBlocks rest with
          | .ok tl =>
            .ok ([v1 * 4 + v2 / 16, v2 % 16 * 16 + v3 / 4,
                  v3 % 4 * 64 + b64val d] ++ tl)
          | .error e => .error e
  | _ => .error ("binascii.Error")

def b64decode (s : String) : Except String (List ℕ) :=
  decodeBlocks (s.data.filter (fun c => isB64Char c || c = '='))

example : b64decode ("QUJD") = .ok ([65, 66, 67]) := by decide
example : b64decode ("QQ==") = .ok ([65]) := by decide
example : b64decode ("QQ=") = .error ("binascii.Error") := by decide

/-! ## PDF renderer (`create_pdf_doc`, gourmet2pdf.py lines 95-174) -/

/-- `'<link href="{0}" color="blue">{0}</link>'.format(l)`. -/
def linkMarkup (l : String) : String :=
  "<link href=\"" ++ l ++ "\" color=\"blue\">" ++ l ++ "</link>"

/-- The metadata line fragments (gourmet2pdf.py lines 113-117), one labelled
fragment per present field, later joined with `<br/>`. -/
def topline (r : Recipe) : List String :=
  (r.source.map (fun s => "Quelle: " ++ s)).toList ++
  (r.link.map (fun l => "Link: " ++ linkMarkup l)).toList ++
  (r.rating.map (fun rt => "Bewertung: " ++ starify_rating rt)).toList ++
  (r.category.map (fun c => "Kategorie: " ++ c)).toList

/-- The ingredient groups rendered for the PDF (lines 129-136): all
`<inggroup>` elements, or the recipe itself as one unnamed group when none
are present. -/
def pdfIngredientGroups (r : Recipe) : List (List String) :=
  match r.inggroups with
  | [] => [add_ingredients_for_group ⟨none, r.ingredients⟩]
  | gs => gs.map add_ingredients_for_group

/-- The rows of the PDF ingredient table (lines 140-151): the first cell of
the first group, or the "Keine Zutaten" placeholder when indexing the first
group's first entry raises `IndexError` (caught by the bare `except`), then
the remaining entries, then each further group preceded by a spacer
(modelled as an empty row). -/
def pdfIngredientRows (r : Recipe) : List String :=
  let gs := pdfIngredientGroups r
  let first : List String :=
    match gs.headD [] with
    | [] => ["Keine Zutaten für dieses Rezept gegeben!"]
    | x :: xs => x :: xs
  first ++ ((gs.drop 1).map (fun g => "" :: g)).flatten

/-- `s.replace('\n', '<br/>')`. -/
def replaceNewlines (s : String) : String :=
  String.mk ((s.data.map (fun c => if c = '\n' then "<br/>".data else [c])).flatten)

/-- The per-recipe block sequence the PDF renderer emits. -/
structure PdfRecipe where
  heading : String
  topline : List String
  image : Option (List ℕ)
  ingredientRows : List String
  instructions : Option String
  modifications : Option String
deriving DecidableEq, Repr

/-- `base64.b64decode(recipe.image.string)` when an image is present. -/
def optImageBytes : Option String → Except String (Option (List ℕ))
  | none => .ok none
  | some b => (b64decode b).map some

/-- Embedding of the per-recipe part of `create_pdf_doc` (lines 107-172).
`recipe.title.string` on an absent title is `None.string` and raises
`AttributeError`; a present image is base64-decoded (decode failure
propagates); all other fields degrade to omission.  Instructions and
modifications have their newlines replaced by `<br/>`. -/
def create_pdf_recipe (r : Recipe) : Except String PdfRecipe :=
  match r.title with
  | none => .error ("AttributeError")
  | some t =>
    match optImageBytes r.image with
    | .error e => .error e
    | .ok img =>
      .ok { heading := t
            topline := topline r
            image := img
            ingredientRows := pdfIngredientRows r
            instructions := r.instructions.map replaceNewlines
            modifications := r.modifications.map replaceNewlines }

/-! ## JSON exporter (`create_json_doc`, gourmet2pdf.py lines 204-277) -/

/-- The fixed author constant. -/
def AUTHOR : String := "Markus Wichmann"

/-- The aggregateRating object (lines 234-242): `ratingCount` is fixed at
1 and the value is `float(rating.split('/')[0]) / 5 * 10` — the divisor is
the constant 5 whatever the denominator text says; on `ValueError` or
`TypeError` the initial `rate = 0` is kept (exception caught), and the
object is still written.  Exact model: `(n / d) / 5 * 10 = (n * 10) / (d * 5)`. -/
structure RatingObj where
  ratingCount : ℕ
  ratingValue : PyFloat
deriving DecidableEq, Repr

def json_rating (rating : String) : RatingObj :=
  match floatParse (numeratorText rating) with
  | some f => { ratingCount := 1, ratingValue := ⟨f.num * 10, f.den * 5⟩ }
  | none => { ratingCount := 1, ratingValue := ⟨0, 1⟩ }

/-- The characters retained by the filesystem-name normalizer (line 215):
`"-_.() {ascii_letters}{digits}äöüÄÖÜß"`. -/
def valid_chars : List Char :=
  ("-_.() abcdefghijklmnopqrstuvwxyzABCDEFGHIJKLMNOPQRSTUVWXYZ0123456789äöüÄÖÜß").data

/-- The filesystem-name normalizer (line 216): keep exactly the characters
in the allow-list, dropping the rest. -/
def valid_dirname (t : String) : String :=
  String.mk (t.data.filter (fun c => valid_chars.contains c))

/-- Split a character list at every occurrence of a separator (Python
`str.split` with an explicit separator: `''.split` gives `['']`). -/
def splitOnChar (c : Char) : List Char → List (List Char)
  | [] => [[]]
  | x :: xs =>
    let r := splitOnChar c xs
    if x = c then [] :: r
    else
      match r with
      | h :: t => (x :: h) :: t
      | [] => [[x]]

/-- `recipeInstructions` (lines 271-272): present iff the instructions tag
exists and its text is truthy (non-empty); the text is split on newlines. -/
def jsonInstructions : Option String → Option (List String)
  | none => none
  | some s => if s = "" then none else some ((splitOnChar '\n' s.data).map String.mk)

/-- `recipeIngredient` (lines 256-268): group headings inline with the
ingredient lines when groups exist, otherwise the direct ingredients. -/
def jsonIngredients (r : Recipe) : List String :=
  match r.inggroups with
  | [] => r.ingredients.map jsonIngredientLine
  | gs => (gs.map jsonGroupLines).flatten

/-- The schema.org document written to `recipe.json` (fixed
`@context`/`@type` markers omitted; `publisher` stands for the
Organization object whose `name` is the source text). -/
structure JsonDoc where
  name : String
  author : String
  publisher : Option String
  url : Option String
  recipeCategory : Option String
  aggregateRating : Option RatingObj
  prepTime : Option String
  cookTime : Option String
  performTime : Option String
  recipeYield : Option String
  image : Option String
  recipeIngredient : List String
  recipeInstructions : Option (List String)
  comment : Option String
deriving DecidableEq, Repr

/-- `parse_time` applied to a present duration field (lines 244-246); an
uncaught exception inside `parse_time` propagates. -/
def optTime : Option String → Except String (Option String)
  | none => .ok none
  | some s => (parse_time s).map some

/-- Embedding of the document-building part of `create_json_doc` (lines
224-274) for one recipe.  The title is read first (for the directory name
and the `name` key) and raises `AttributeError` when absent; the three
duration fields and the image decoding can raise; every other absent field
is guarded by an `if` and degrades to omission. -/
def create_json_recipe (r : Recipe) : Except String JsonDoc :=
  match r.title with
  | none => .error ("AttributeError")
  | some t =>
    match optTime r.preptime with
    | .error e => .error e
    | .ok prep =>
      match optTime r.cooktime with
      | .error e => .error e
      | .ok cook =>
        match optTime r.totaltime with
        | .error e => .error e
        | .ok perform =>
          match optImageBytes r.image with
          | .error e => .error e
          | .ok img =>
            .ok { name := t
                  author := AUTHOR
                  publisher := r.source
                  url := r.link
                  recipeCategory := r.category
                  aggregateRating := r.rating.map json_rating
                  prepTime := prep
                  cookTime := cook
                  performTime := perform
                  recipeYield := r.yields
                  image := img.map (fun _ => valid_dirname t ++ "/full.jpg")
                  recipeIngredient := jsonIngredients r
                  recipeInstructions := jsonInstructions r.instructions
                  comment := r.modifications }

/-- Inversion for a successful JSON document build: all fallible fields
succeeded and the document is the record built from the recipe. -/
theorem create_json_recipe_ok (r : Recipe) (doc : JsonDoc)
    (h : create_json_recipe r = .ok doc) :
    ∃ t prep cook perform img, r.title = some t ∧
      optTime r.preptime = .ok prep ∧ optTime r.cooktime = .ok cook ∧
      optTime r.totaltime = .ok perform ∧ optImageBytes r.image = .ok img ∧
      doc = { name := t
              author := AUTHOR
              publisher := r.source
              url := r.link
              recipeCategory := r.category
              aggregateRating := r.rating.map json_rating
              prepTime := prep
              cookTime := cook
              performTime := perform
              recipeYield := r.yields
              image := img.map (fun _ => valid_dirname t ++ "/full.jpg")
              recipeIngredient := jsonIngredients r
              recipeInstructions := jsonInstructions r.instructions
              comment := r.modifications } := by
  cases ht : r.title with
  | none => rw [create_json_recipe, ht] at h; exact absurd h (by simp)
  | some t =>
    cases h1 : optTime r.preptime with
    | error e => rw [create_json_recipe, ht, h1] at h; exact absurd h (by simp)
    | ok prep =>
      cases h2 : optTime r.cooktime with
      | error e =>
        rw [create_json_recipe, ht, h1, h2] at h; exact absurd h (by simp)
      | ok cook =>
        cases h3 : optTime r.totaltime with
        | error e =>
          rw [create_json_recipe, ht, h1, h2, h3] at h; exact absurd h (by simp)
        | ok perform =>
          cases h4 : optImageBytes r.image with
          | error e =>
            rw [create_json_recipe, ht, h1, h2, h3, h4] at h
            exact absurd h (by simp)
          | ok img =>
            rw [create_json_recipe, ht, h1, h2, h3, h4] at h
            refine ⟨t, prep, cook, perform, img, rfl, rfl, rfl, rfl, rfl, ?_⟩
            injection h with hh
            exact hh.symm

/-- The exact value identity behind the rating export: multiplying the
numerator by 10 and the denominator by 5 is division by the constant 5
followed by multiplication by 10. -/
theorem pyval_mul10_div5 (f : PyFloat) :
    (PyFloat.mk (f.num * 10) (f.den * 5)).val = f.val / 5 * 10 := by
  unfold PyFloat.val
  rcases Nat.eq_zero_or_pos f.den with h0 | hpos
  · simp [h0]
  · have hd : ((f.den : ℕ) : ℚ) ≠ 0 := by positivity
    push_cast
    field_simp

/-- Splitting at the first slash recovers the part before a slash. -/
theorem numeratorText_append_slash (a b : String) (h : ('/' : Char) ∉ a.data) :
    numeratorText (a ++ "/" ++ b) = a := by
  unfold numeratorText
  rw [string_data_append, string_data_append]
  have hsd : ("/" : String).data = ['/'] := rfl
  rw [hsd, List.append_assoc]
  rw [List.takeWhile_append_of_pos (by
    intro c hc
    have hcne : c ≠ '/' := by
      intro hEq
      subst hEq
      exact h hc
    exact decide_eq_true hcne)]
  have h2 : (((['/'] : List Char) ++ b.data).takeWhile
      (fun c => decide (c ≠ '/'))) = [] := by
    simp
  rw [List.cons_append] at h2 ⊢
  rw [h2, List.append_nil]

/-- C5: for every recipe whose rating's numerator text parses as a number
`a`, the JSON document carries an aggregateRating object with ratingCount
fixed at 1 and ratingValue the number `a / 5 * 10`; the divisor is the
constant 5 regardless of the denominator text after the slash (second
conjunct: the written object depends only on the text before the slash). -/
theorem json_rating_fixed_denominator :
    (∀ (r : Recipe) (doc : JsonDoc) (rt : String) (f : PyFloat),
      create_json_recipe r = .ok doc → r.rating = some rt →
      floatParse (numeratorText rt) = some f →
        doc.aggregateRating =
          some { ratingCount := 1, ratingValue := ⟨f.num * 10, f.den * 5⟩ } ∧
        (PyFloat.mk (f.num * 10) (f.den * 5)).val = f.val / 5 * 10) ∧
    (∀ (a b : String) (f : PyFloat), ('/' : Char) ∉ a.data →
      floatParse a = some f →
        json_rating (a ++ "/" ++ b) =
          { ratingCount := 1, ratingValue := ⟨f.num * 10, f.den * 5⟩ }) := by
  constructor
  · intro r doc rt f hdoc hrt hf
    obtain ⟨t, prep, cook, perform, img, ht, h1, h2, h3, h4, hdEq⟩ :=
      create_json_recipe_ok r doc hdoc
    refine ⟨?_, pyval_mul10_div5 f⟩
    rw [hdEq]
    simp only [hrt, Option.map_some]
    unfold json_rating
    simp only [Option.map_some']
    rw [hf]
  · intro a b f hslash hf
    unfold json_rating
    rw [numeratorText_append_slash a b hslash, hf]

/-- Witness for `json_rating_fixed_denominator` at the rating "7/10" on a
minimal recipe. -/
theorem json_rating_fixed_denominator_witness :
    (JsonDoc.mk ("Kuchen") AUTHOR none none none
        (some { ratingCount := 1, ratingValue := ⟨70, 5⟩ }) none none none
        none none ([]) none none).aggregateRating =
      some { ratingCount := 1, ratingValue := ⟨70, 5⟩ } ∧
    (PyFloat.mk 70 5).val = (PyFloat.mk 7 1).val / 5 * 10 :=
  (json_rating_fixed_denominator.1
    ({ title := some ("Kuchen"), source := none, link := none,
       rating := some ("7/10"), category := none, image := none,
       preptime := none, cooktime := none, totaltime := none, yields := none,
       inggroups := [], ingredients := [], instructions := none,
       modifications := none })
    (JsonDoc.mk ("Kuchen") AUTHOR none none none
        (some { ratingCount := 1, ratingValue := ⟨70, 5⟩ }) none none none
        none none ([]) none none)
    ("7/10") ⟨7, 1⟩ (by decide) rfl (by decide))

/-! ## Field absence (claim C4) -/

/-- Whether an `Except` computation succeeded (no exception). -/
def exceptOk {α : Type} : Except String α → Bool
  | .ok _ => true
  | .error _ => false

/-- The optional fields of the data model, plus the title. -/
inductive RecipeField
  | source | link | rating | category | image | preptime | cooktime
  | totaltime | yields | ingredients | instructions | modifications | title
deriving DecidableEq, Repr

/-- Remove one field from a recipe (the corresponding tag is absent). -/
def eraseField : RecipeField → Recipe → Recipe
  | .source, r => { r with source := none }
  | .link, r => { r with link := none }
  | .rating, r => { r with rating := none }
  | .category, r => { r with category := none }
  | .image, r => { r with image := none }
  | .preptime, r => { r with preptime := none }
  | .cooktime, r => { r with cooktime := none }
  | .totaltime, r => { r with totaltime := none }
  | .yields, r => { r with yields := none }
  | .ingredients, r => { r with inggroups := [], ingredients := [] }
  | .instructions, r => { r with instructions := none }
  | .modifications, r => { r with modifications := none }
  | .title, r => { r with title := none }

/-- The JSON document omits the section corresponding to an absent field
(for the ingredient list: it is empty; the key itself is always written). -/
def jsonOmitted : RecipeField → JsonDoc → Prop
  | .source, d => d.publisher = none
  | .link, d => d.url = none
  | .rating, d => d.aggregateRating = none
  | .category, d => d.recipeCategory = none
  | .image, d => d.image = none
  | .preptime, d => d.prepTime = none
  | .cooktime, d => d.cookTime = none
  | .totaltime, d => d.performTime = none
  | .yields, d => d.recipeYield = none
  | .ingredients, d => d.recipeIngredient = []
  | .instructions, d => d.recipeInstructions = none
  | .modifications, d => d.comment = none
  | .title, _ => True

/-- The PDF block sequence omits the line or section corresponding to an
absent field: no metadata fragment carries the field's label (fragments
are told apart by their first four characters), the image block is the
empty placeholder, the ingredient table shows the "Keine Zutaten"
placeholder, the optional sections disappear.  The PDF renders no
durations and no yield, so those are vacuous. -/
def pdfOmitted : RecipeField → PdfRecipe → Prop
  | .source, d => ∀ l ∈ d.topline, l.data.take 4 ≠ ("Quel").data
  | .link, d => ∀ l ∈ d.topline, l.data.take 4 ≠ ("Link").data
  | .rating, d => ∀ l ∈ d.topline, l.data.take 4 ≠ ("Bewe").data
  | .category, d => ∀ l ∈ d.topline, l.data.take 4 ≠ ("Kate").data
  | .image, d => d.image = none
  | .preptime, _ => True
  | .cooktime, _ => True
  | .totaltime, _ => True
  | .yields, _ => True
  | .ingredients, d =>
      d.ingredientRows = ["Keine Zutaten für dieses Rezept gegeben!"]
  | .instructions, d => d.instructions = none
  | .modifications, d => d.modifications = none
  | .title, _ => True

theorem take4_append (s x : String) (h : 4 ≤ s.data.length) :
    (s ++ x).data.take 4 = s.data.take 4 := by
  rw [string_data_append]
  exact List.take_eq_left_iff.2 (Or.inr h)

theorem mem_opt_toList {α β : Type} (f : α → β) (o : Option α) (x : β)
    (h : x ∈ (o.map f).toList) : ∃ a, o = some a ∧ x = f a := by
  cases ho : o with
  | none => rw [ho] at h; simp at h
  | some a =>
    rw [ho] at h
    simp at h
    exact ⟨a, rfl, h⟩

/-- Every metadata fragment comes from one of the four optional fields. -/
theorem topline_mem (r : Recipe) (l : String) (hl : l ∈ topline r) :
    (∃ s, r.source = some s ∧ l = "Quelle: " ++ s) ∨
    (∃ s, r.link = some s ∧ l = "Link: " ++ linkMarkup s) ∨
    (∃ s, r.rating = some s ∧ l = "Bewertung: " ++ starify_rating s) ∨
    (∃ s, r.category = some s ∧ l = "Kategorie: " ++ s) := by
  unfold topline at hl
  rcases List.mem_append.1 hl with h123 | h4
  · rcases List.mem_append.1 h123 with h12 | h3
    · rcases List.mem_append.1 h12 with h1 | h2
      · obtain ⟨s, hs, rfl⟩ := mem_opt_toList _ _ _ h1
        exact Or.inl ⟨s, hs, rfl⟩
      · obtain ⟨s, hs, rfl⟩ := mem_opt_toList _ _ _ h2
        exact Or.inr (Or.inl ⟨s, hs, rfl⟩)
    · obtain ⟨s, hs, rfl⟩ := mem_opt_toList _ _ _ h3
      exact Or.inr (Or.inr (Or.inl ⟨s, hs, rfl⟩))
  · obtain ⟨s, hs, rfl⟩ := mem_opt_toList _ _ _ h4
    exact Or.inr (Or.inr (Or.inr ⟨s, hs, rfl⟩))

/-- Successful JSON build from the components. -/
theorem create_json_recipe_build (r : Recipe) (t : String)
    (prep cook perform : Option String) (img : Option (List ℕ))
    (ht : r.title = some t) (h1 : optTime r.preptime = .ok prep)
    (h2 : optTime r.cooktime = .ok cook)
    (h3 : optTime r.totaltime = .ok perform)
    (h4 : optImageBytes r.image = .ok img) :
    create_json_recipe r =
      .ok { name := t
            author := AUTHOR
            publisher := r.source
            url := r.link
            recipeCategory := r.category
            aggregateRating := r.rating.map json_rating
            prepTime := prep
            cookTime := cook
            performTime := perform
            recipeYield := r.yields
            image := img.map (fun _ => valid_dirname t ++ "/full.jpg")
            recipeIngredient := jsonIngredients r
            recipeInstructions := jsonInstructions r.instructions
            comment := r.modifications } := by
  unfold create_json_recipe
  rw [ht, h1, h2, h3, h4]

/-- Successful PDF build from the components. -/
theorem create_pdf_recipe_build (r : Recipe) (t : String)
    (img : Option (List ℕ))
    (ht : r.title = some t) (h4 : optImageBytes r.image = .ok img) :
    create_pdf_recipe r =
      .ok { heading := t
            topline := topline r
            image := img
            ingredientRows := pdfIngredientRows r
            instructions := r.instructions.map replaceNewlines
            modifications := r.modifications.map replaceNewlines } := by
  unfold create_pdf_recipe
  rw [ht, h4]

/-- Inversion for a successful PDF build. -/
theorem create_pdf_recipe_ok (r : Recipe) (doc : PdfRecipe)
    (h : create_pdf_recipe r = .ok doc) :
    ∃ t img, r.title = some t ∧ optImageBytes r.image = .ok img ∧
      doc = { heading := t
              topline := topline r
              image := img
              ingredientRows := pdfIngredientRows r
              instructions := r.instructions.map replaceNewlines
              modifications := r.modifications.map replaceNewlines } := by
  cases ht : r.title with
  | none => rw [create_pdf_recipe, ht] at h; exact absurd h (by simp)
  | some t =>
    cases h4 : optImageBytes r.image with
    | error e => rw [create_pdf_recipe, ht, h4] at h; exact absurd h (by simp)
    | ok img =>
      rw [create_pdf_recipe, ht, h4] at h
      refine ⟨t, img, rfl, rfl, ?_⟩
      injection h with hh
      exact hh.symm

/-- C4 (amended to the fields other than the required title): for every
recipe on which a converter succeeds, erasing any field other than the
title still succeeds — the absence raises nothing — and the resulting
document omits the corresponding section or line, in both the JSON and the
PDF output.  The title is excluded: both converters dereference
`recipe.title.string` unguarded (see `title_absence_crashes`). -/
theorem field_absence_degrades (r : Recipe) (f : RecipeField)
    (hf : f ≠ RecipeField.title) :
    (exceptOk (create_json_recipe r) = true →
      ∃ dj, create_json_recipe (eraseField f r) = .ok dj ∧ jsonOmitted f dj) ∧
    (exceptOk (create_pdf_recipe r) = true →
      ∃ dp, create_pdf_recipe (eraseField f r) = .ok dp ∧ pdfOmitted f dp) := by
  constructor
  · intro hj
    obtain ⟨dj, hdj⟩ : ∃ d, create_json_recipe r = .ok d := by
      cases hcase : create_json_recipe r with
      | ok d => exact ⟨d, rfl⟩
      | error e => rw [hcase] at hj; exact absurd hj (by simp [exceptOk])
    obtain ⟨t, prep, cook, perform, img, ht, h1, h2, h3, h4, _⟩ :=
      create_json_recipe_ok r dj hdj
    cases f with
    | title => exact absurd rfl hf
    | source =>
      exact ⟨_, create_json_recipe_build _ t prep cook perform img ht h1 h2 h3 h4, rfl⟩
    | link =>
      exact ⟨_, create_json_recipe_build _ t prep cook perform img ht h1 h2 h3 h4, rfl⟩
    | rating =>
      exact ⟨_, create_json_recipe_build _ t prep cook perform img ht h1 h2 h3 h4, rfl⟩
    | category =>
      exact ⟨_, create_json_recipe_build _ t prep cook perform img ht h1 h2 h3 h4, rfl⟩
    | image =>
      exact ⟨_, create_json_recipe_build _ t prep cook perform none ht h1 h2 h3 rfl, rfl⟩
    | preptime =>
      exact ⟨_, create_json_recipe_build _ t none cook perform img ht rfl h2 h3 h4, rfl⟩
    | cooktime =>
      exact ⟨_, create_json_recipe_build _ t prep none perform img ht h1 rfl h3 h4, rfl⟩
    | totaltime =>
      exact ⟨_, create_json_recipe_build _ t prep cook none img ht h1 h2 rfl h4, rfl⟩
    | yields =>
      exact ⟨_, create_json_recipe_build _ t prep cook perform img ht h1 h2 h3 h4, rfl⟩
    | ingredients =>
      exact ⟨_, create_json_recipe_build _ t prep cook perform img ht h1 h2 h3 h4, rfl⟩
    | instructions =>
      exact ⟨_, create_json_recipe_build _ t prep cook perform img ht h1 h2 h3 h4, rfl⟩
    | modifications =>
      exact ⟨_, create_json_recipe_build _ t prep cook perform img ht h1 h2 h3 h4, rfl⟩
  · intro hp
    obtain ⟨dp, hdp⟩ : ∃ d, create_pdf_recipe r = .ok d := by
      cases hcase : create_pdf_recipe r with
      | ok d => exact ⟨d, rfl⟩
      | error e => rw [hcase] at hp; exact absurd hp (by simp [exceptOk])
    obtain ⟨t, img, ht, h4, _⟩ := create_pdf_recipe_ok r dp hdp
    cases f with
    | title => exact absurd rfl hf
    | source =>
      refine ⟨_, create_pdf_recipe_build _ t img ht h4, ?_⟩
      intro l hl
      rcases topline_mem _ l hl with ⟨s, hs, rfl⟩ | ⟨s, hs, rfl⟩ |
        ⟨s, hs, rfl⟩ | ⟨s, hs, rfl⟩
      · exact absurd hs (by simp [eraseField])
      · rw [take4_append _ _ (by decide)]; decide
      · rw [take4_append _ _ (by decide)]; decide
      · rw [take4_append _ _ (by decide)]; decide
    | link =>
      refine ⟨_, create_pdf_recipe_build _ t img ht h4, ?_⟩
      intro l hl
      rcases topline_mem _ l hl with ⟨s, hs, rfl⟩ | ⟨s, hs, rfl⟩ |
        ⟨s, hs, rfl⟩ | ⟨s, hs, rfl⟩
      · rw [take4_append _ _ (by decide)]; decide
      · exact absurd hs (by simp [eraseField])
      · rw [take4_append _ _ (by decide)]; decide
      · rw [take4_append _ _ (by decide)]; decide
    | rating =>
      refine ⟨_, create_pdf_recipe_build _ t img ht h4, ?_⟩
      intro l hl
      rcases topline_mem _ l hl with ⟨s, hs, rfl⟩ | ⟨s, hs, rfl⟩ |
        ⟨s, hs, rfl⟩ | ⟨s, hs, rfl⟩
      · rw [take4_append _ _ (by decide)]; decide
      · rw [take4_append _ _ (by decide)]; decide
      · exact absurd hs (by simp [eraseField])
      · rw [take4_append _ _ (by decide)]; decide
    | category =>
      refine ⟨_, create_pdf_recipe_build _ t img ht h4, ?_⟩
      intro l hl
      rcases topline_mem _ l hl with ⟨s, hs, rfl⟩ | ⟨s, hs, rfl⟩ |
        ⟨s, hs, rfl⟩ | ⟨s, hs, rfl⟩
      · rw [take4_append _ _ (by decide)]; decide
      · rw [take4_append _ _ (by decide)]; decide
      · rw [take4_append _ _ (by decide)]; decide
      · exact absurd hs (by simp [eraseField])
    | image =>
      exact ⟨_, create_pdf_recipe_build _ t none ht rfl, rfl⟩
    | preptime =>
      exact ⟨_, create_pdf_recipe_build _ t img ht h4, trivial⟩
    | cooktime =>
      exact ⟨_, create_pdf_recipe_build _ t img ht h4, trivial⟩
    | totaltime =>
      exact ⟨_, create_pdf_recipe_build _ t img ht h4, trivial⟩
    | yields =>
      exact ⟨_, create_pdf_recipe_build _ t img ht h4, trivial⟩
    | ingredients =>
      exact ⟨_, create_pdf_recipe_build _ t img ht h4, rfl⟩
    | instructions =>
      exact ⟨_, create_pdf_recipe_build _ t img ht h4, rfl⟩
    | modifications =>
      exact ⟨_, create_pdf_recipe_build _ t img ht h4, rfl⟩

/-- A concrete recipe with every field present and well-formed. -/
def sampleRecipe : Recipe :=
  { title := some ("Apfelkuchen")
    source := some ("Oma")
    link := some ("http://example.org/kuchen")
    rating := some ("7/10")
    category := some ("Kuchen")
    image := some ("QUJD")
    preptime := some ("45 Minuten")
    cooktime := some ("1 Stunde")
    totaltime := some ("1 Stunde 45 Minuten")
    yields := some ("4 Portionen")
    inggroups := [⟨some ("Teig"), [⟨some ("250"), some ("g"), some ("Mehl")⟩]⟩]
    ingredients := []
    instructions := some ("Alles mischen.\nBacken.")
    modifications := some ("Mehr Zucker.") }

/-- C4 counterexample to the claim as stated (which includes the title):
both converters succeed on `sampleRecipe`, but with the title absent each
raises `AttributeError` (`recipe.title.string` on `None`), so absence of
the title does cause the converter to raise. -/
theorem title_absence_crashes :
    exceptOk (create_json_recipe sampleRecipe) = true ∧
    exceptOk (create_pdf_recipe sampleRecipe) = true ∧
    create_json_recipe (eraseField RecipeField.title sampleRecipe) =
      .error ("AttributeError") ∧
    create_pdf_recipe (eraseField RecipeField.title sampleRecipe) =
      .error ("AttributeError") := by
  refine ⟨?_, ?_, ?_, ?_⟩ <;> decide

/-- Witness for `field_absence_degrades`: erasing the source from the
sample recipe leaves both converters succeeding. -/
theorem field_absence_degrades_witness :
    exceptOk (create_json_recipe (eraseField RecipeField.source sampleRecipe))
        = true ∧
    exceptOk (create_pdf_recipe (eraseField RecipeField.source sampleRecipe))
        = true := by
  obtain ⟨hj, hp⟩ := field_absence_degrades sampleRecipe RecipeField.source
    (by decide)
  obtain ⟨dj, hdj, _⟩ := hj (by decide)
  obtain ⟨dp, hdp, _⟩ := hp (by decide)
  rw [hdj, hdp]
  exact ⟨rfl, rfl⟩

/-! ## Export batch (`create_json_doc`, gourmet2pdf.py lines 204-277)

The filesystem is modelled relative to the output directory: `dirs` is the
set of existing directory names (the empty name standing for the output
directory itself, which pathlib yields for an empty `valid_dirname` since
empty path components are dropped), and the two file lists record the
written `recipe.json` documents and image bytes.  `mkdir` on an existing
name raises `FileExistsError`, which the loop catches and answers with a
log line and `continue`; any other exception aborts the whole loop (there
is no surrounding handler).  A `full.jpg` left empty by a decode failure
after `open` is not modelled (the run aborts there anyway). -/

structure FsState where
  dirs : List String
  jsonFiles : List (String × JsonDoc)
  imageFiles : List (String × List ℕ)
deriving DecidableEq, Repr

inductive StepResult
  | skipped
  | written
  | errored (e : String)
deriving DecidableEq, Repr

/-- One iteration of the export loop: read the title (raising
`AttributeError` when absent), normalise it, try `mkdir` (skip on
`FileExistsError`), then build the document — any exception there leaves
the created directory behind and aborts — and finally write the image (if
present) and `recipe.json`. -/
def json_step (r : Recipe) (st : FsState) : FsState × StepResult :=
  match r.title with
  | none => (st, .errored ("AttributeError"))
  | some t =>
    let d := valid_dirname t
    if d ∈ st.dirs then (st, .skipped)
    else
      let st1 : FsState := { st with dirs := d :: st.dirs }
      match create_json_recipe r with
      | .error e => (st1, .errored e)
      | .ok doc =>
        let st2 : FsState :=
          match r.image with
          | some b =>
            match b64decode b with
            | .ok bytes =>
              { st1 with imageFiles := (d ++ "/full.jpg", bytes) :: st1.imageFiles }
            | .error _ => st1
          | none => st1
        ({ st2 with jsonFiles := (d ++ "/recipe.json", doc) :: st2.jsonFiles },
          .written)

/-- The export loop over the recipe sequence: recipes are processed in
order; an uncaught exception aborts the rest of the batch. -/
def create_json_run : List Recipe → FsState → FsState × List StepResult
  | [], st => (st, [])
  | r :: rest, st =>
    match json_step r st with
    | (st1, .errored e) => (st1, [.errored e])
    | (st1, .skipped) =>
      ((create_json_run rest st1).1, .skipped :: (create_json_run rest st1).2)
    | (st1, .written) =>
      ((create_json_run rest st1).1, .written :: (create_json_run rest st1).2)

theorem json_step_skip (r : Recipe) (st : FsState) (t : String)
    (ht : r.title = some t) (hd : valid_dirname t ∈ st.dirs) :
    json_step r st = (st, .skipped) := by
  unfold json_step
  rw [ht]
  simp [hd]

theorem json_step_skipped_inv (r : Recipe) (st st1 : FsState)
    (h : json_step r st = (st1, .skipped)) :
    st1 = st ∧ ∃ t, r.title = some t ∧ valid_dirname t ∈ st.dirs := by
  unfold json_step at h
  cases ht : r.title with
  | none => rw [ht] at h; simp at h
  | some t =>
    rw [ht] at h
    dsimp only at h
    by_cases hd : valid_dirname t ∈ st.dirs
    · rw [if_pos hd] at h
      refine ⟨?_, t, rfl, hd⟩
      have := (Prod.mk.injEq _ _ _ _ ▸ h)
      exact this.1.symm
    · rw [if_neg hd] at h
      cases hc : create_json_recipe r with
      | error e => rw [hc] at h; simp at h
      | ok doc => rw [hc] at h; simp at h

theorem json_step_written_inv (r : Recipe) (st st1 : FsState)
    (h : json_step r st = (st1, .written)) :
    ∃ t, r.title = some t ∧ valid_dirname t ∈ st1.dirs ∧
      ∀ x ∈ st.dirs, x ∈ st1.dirs := by
  unfold json_step at h
  cases ht : r.title with
  | none => rw [ht] at h; simp at h
  | some t =>
    rw [ht] at h
    dsimp only at h
    by_cases hd : valid_dirname t ∈ st.dirs
    · rw [if_pos hd] at h; simp at h
    · rw [if_neg hd] at h
      cases hc : create_json_recipe r with
      | error e => rw [hc] at h; simp at h
      | ok doc =>
        rw [hc] at h
        dsimp only at h
        cases hi : r.image with
        | none =>
          rw [hi] at h
          dsimp only at h
          simp only [Prod.mk.injEq] at h
          obtain ⟨h1, -⟩ := h
          refine ⟨t, rfl, ?_, ?_⟩
          · rw [← h1]; exact List.mem_cons_self _ _
          · intro x hx; rw [← h1]; exact List.mem_cons_of_mem _ hx
        | some b =>
          rw [hi] at h
          dsimp only at h
          cases hb : b64decode b with
          | ok bytes =>
            rw [hb] at h
            dsimp only at h
            simp only [Prod.mk.injEq] at h
            obtain ⟨h1, -⟩ := h
            refine ⟨t, rfl, ?_, ?_⟩
            · rw [← h1]; exact List.mem_cons_self _ _
            · intro x hx; rw [← h1]; exact List.mem_cons_of_mem _ hx
          | error e =>
            rw [hb] at h
            dsimp only at h
            simp only [Prod.mk.injEq] at h
            obtain ⟨h1, -⟩ := h
            refine ⟨t, rfl, ?_, ?_⟩
            · rw [← h1]; exact List.mem_cons_self _ _
            · intro x hx; rw [← h1]; exact List.mem_cons_of_mem _ hx

theorem json_step_dirs_mono (r : Recipe) (st : FsState) (x : String)
    (hx : x ∈ st.dirs) : x ∈ (json_step r st).1.dirs := by
  unfold json_step
  cases ht : r.title with
  | none => exact hx
  | some t =>
    dsimp only
    by_cases hd : valid_dirname t ∈ st.dirs
    · rw [if_pos hd]; exact hx
    · rw [if_neg hd]
      cases hc : create_json_recipe r with
      | error e => exact List.mem_cons_of_mem _ hx
      | ok doc =>
        dsimp only
        cases hi : r.image with
        | none => exact List.mem_cons_of_mem _ hx
        | some b =>
          dsimp only
          cases hb : b64decode b with
          | ok bytes => exact List.mem_cons_of_mem _ hx
          | error e => exact List.mem_cons_of_mem _ hx

theorem create_json_run_dirs_mono (rs : List Recipe) (st : FsState)
    (x : String) (hx : x ∈ st.dirs) :
    x ∈ (create_json_run rs st).1.dirs := by
  induction rs generalizing st with
  | nil => exact hx
  | cons r rest ih =>
    unfold create_json_run
    have hx1 : x ∈ (json_step r st).1.dirs := json_step_dirs_mono r st x hx
    cases hs : json_step r st with
    | mk st1 res =>
      rw [hs] at hx1
      cases res with
      | errored e => exact hx1
      | skipped => exact ih st1 hx1
      | written => exact ih st1 hx1

/-- C8: a recipe whose normalised directory name already exists is skipped
entirely — nothing is written, the state is unchanged, the loop continues —
and consequently re-running a completed (error-free) export with the same
input leaves the filesystem state byte-for-byte untouched and logs exactly
one skip per recipe. -/
theorem json_export_rerun_skips :
    (∀ (r : Recipe) (st : FsState) (t : String),
      r.title = some t → valid_dirname t ∈ st.dirs →
      json_step r st = (st, .skipped)) ∧
    (∀ (rs : List Recipe) (S S2 : FsState) (log : List StepResult),
      create_json_run rs S = (S2, log) →
      (∀ e, StepResult.errored e ∉ log) →
      create_json_run rs S2 = (S2, List.replicate rs.length .skipped)) := by
  refine ⟨json_step_skip, ?_⟩
  intro rs
  induction rs with
  | nil =>
    intro S S2 log h _
    unfold create_json_run at h
    simp only [Prod.mk.injEq] at h
    obtain ⟨h1, -⟩ := h
    rw [← h1]
    rfl
  | cons r rest ih =>
    intro S S2 log h hclean
    unfold create_json_run at h
    cases hs : json_step r S with
    | mk st1 res =>
      rw [hs] at h
      cases res with
      | errored e =>
        dsimp only at h
        simp only [Prod.mk.injEq] at h
        obtain ⟨-, hlog⟩ := h
        exact absurd (by rw [← hlog]; exact List.mem_cons_self _ _) (hclean e)
      | skipped =>
        dsimp only at h
        simp only [Prod.mk.injEq] at h
        obtain ⟨hS2, hlog⟩ := h
        obtain ⟨hst, t, ht, hd⟩ := json_step_skipped_inv r S st1 hs
        subst hst
        have hrun : create_json_run rest st1 = (S2, (create_json_run rest st1).2) := by
          rw [← hS2]
        have hreplica := ih st1 S2 (create_json_run rest st1).2 hrun
          (fun e he => hclean e (by rw [← hlog]; exact List.mem_cons_of_mem _ he))
        have hdS2 : valid_dirname t ∈ S2.dirs := by
          rw [← hS2]
          exact create_json_run_dirs_mono rest st1 _ hd
        have hstep2 := json_step_skip r S2 t ht hdS2
        unfold create_json_run
        rw [hstep2]
        dsimp only
        rw [hreplica]
        rfl
      | written =>
        dsimp only at h
        simp only [Prod.mk.injEq] at h
        obtain ⟨hS2, hlog⟩ := h
        obtain ⟨t, ht, hd1, -⟩ := json_step_written_inv r S st1 hs
        have hrun : create_json_run rest st1 = (S2, (create_json_run rest st1).2) := by
          rw [← hS2]
        have hreplica := ih st1 S2 (create_json_run rest st1).2 hrun
          (fun e he => hclean e (by rw [← hlog]; exact List.mem_cons_of_mem _ he))
        have hdS2 : valid_dirname t ∈ S2.dirs := by
          rw [← hS2]
          exact create_json_run_dirs_mono rest st1 _ hd1
        have hstep2 := json_step_skip r S2 t ht hdS2
        unfold create_json_run
        rw [hstep2]
        dsimp only
        rw [hreplica]
        rfl

/-- A minimal recipe with only a title. -/
def recipeA : Recipe :=
  { title := some ("A"), source := none, link := none, rating := none,
    category := none, image := none, preptime := none, cooktime := none,
    totaltime := none, yields := none, inggroups := [], ingredients := [],
    instructions := none, modifications := none }

/-- A second minimal recipe with a different title. -/
def recipeB : Recipe := { recipeA with title := some ("B") }

/-- The initial filesystem state: only the output directory itself exists
(the empty relative name). -/
def initState : FsState := { dirs := [""], jsonFiles := [], imageFiles := [] }

/-- Witness for `json_export_rerun_skips`: exporting two recipes and then
re-running the export from the resulting state changes nothing and logs
two skips. -/
theorem json_export_rerun_skips_witness :
    create_json_run ([recipeA, recipeB])
        ((create_json_run ([recipeA, recipeB]) initState).1) =
      ((create_json_run ([recipeA, recipeB]) initState).1,
        List.replicate 2 StepResult.skipped) := by
  have h2 : (create_json_run ([recipeA, recipeB]) initState).2 =
      [StepResult.written, StepResult.written] := by decide
  exact json_export_rerun_skips.2 ([recipeA, recipeB]) initState
    ((create_json_run ([recipeA, recipeB]) initState).1)
    ((create_json_run ([recipeA, recipeB]) initState).2)
    rfl
    (by
      rw [h2]
      intro e he
      simp at he)

/-- C9: the filesystem-name normalizer keeps exactly the characters of the
allow-list — the result is a subsequence of the title, consists only of
allowed characters, and retains every occurrence of every allowed
character (others are dropped, not replaced) — and a title consisting
entirely of disallowed characters normalises to the empty name, for which
the exporter does not crash: pathlib drops the empty component, `mkdir`
on the existing output directory raises `FileExistsError`, and the recipe
is skipped. -/
theorem valid_dirname_spec :
    (∀ t : String,
      List.Sublist (valid_dirname t).data t.data ∧
      (∀ c ∈ (valid_dirname t).data, c ∈ valid_chars) ∧
      (∀ c ∈ valid_chars,
        (valid_dirname t).data.count c = t.data.count c) ∧
      (∀ c, c ∉ valid_chars → c ∉ (valid_dirname t).data)) ∧
    (∀ (t : String) (r : Recipe) (st : FsState),
      r.title = some t → (∀ c ∈ t.data, c ∉ valid_chars) → ("") ∈ st.dirs →
      json_step r st = (st, .skipped)) := by
  constructor
  · intro t
    refine ⟨?_, ?_, ?_, ?_⟩
    · exact List.filter_sublist _
    · intro c hc
      have := List.of_mem_filter hc
      exact (List.elem_iff).1 this
    · intro c hc
      exact List.count_filter ((List.elem_iff).2 hc)
    · intro c hc hmem
      have hmem2 : c ∈ t.data.filter (fun c => valid_chars.contains c) := hmem
      have hp : valid_chars.contains c = true :=
        @List.of_mem_filter _ (fun c => valid_chars.contains c) c t.data hmem2
      exact hc ((List.elem_iff).1 hp)
  · intro t r st ht hall hbase
    have hempty : valid_dirname t = "" := by
      unfold valid_dirname
      have : t.data.filter (fun c => valid_chars.contains c) = [] := by
        rw [List.filter_eq_nil_iff]
        intro c hc hcontains
        exact hall c hc ((List.elem_iff).1 hcontains)
      rw [this]
    have := json_step_skip r st t ht (by rw [hempty]; exact hbase)
    exact this

/-- Witness for `valid_dirname_spec`: a title of punctuation only is
normalised to the empty name and the exporter skips without raising. -/
theorem valid_dirname_spec_witness :
    json_step ({ recipeA with title := some ("??!") }) initState =
      (initState, StepResult.skipped) :=
  valid_dirname_spec.2 ("??!") ({ recipeA with title := some ("??!") })
    initState rfl (by decide) (by decide)

/-- C3 (documents the defect): malformed duration text is not recovered
locally — `parse_time` has no exception handler, so "1/0 Stunden" raises
`ZeroDivisionError` (float division by zero) and "1/2 Minuten" raises
`ValueError` (`int('1/2')`), and the exception propagates past the
recipe's processing: the export run aborts on such a recipe instead of
degrading to a zero duration with a warning. -/
theorem parse_time_exception_propagates :
    parse_time ("1/0 Stunden") = .error ("ZeroDivisionError") ∧
    parse_time ("1/2 Minuten") = .error ("ValueError") ∧
    exceptOk (create_json_recipe
      ({ recipeA with preptime := some ("1/0 Stunden") })) = false ∧
    (create_json_run ([{ recipeA with preptime := some ("1/0 Stunden") }])
        initState).2 = [StepResult.errored ("ZeroDivisionError")] := by
  refine ⟨?_, ?_, ?_, ?_⟩ <;> decide
